import Mathlib

/-!
# Shallow embedding of the `FA2.py` single-edition token contract

This file embeds the SmartPy contract `src/FA2.py` (GenArtLabs /
tezos-artblocks) into Lean 4 and proves the specification claims about
it.  Addresses, mutez amounts and timestamps are modelled as `Nat`;
big-maps are modelled as functions into `Option`/`Bool` (a Michelson
big-map read that would fail on an absent key is modelled explicitly).
Each entry point is a function from a call context and parameters to
`Except FailWith Storage`; the hosting chain applies the result
atomically (`applyCall`), so an error leaves the pre-call storage
untouched, exactly as Tezos reverts a failed operation.
-/

/-- Addresses (`sp.TAddress`) are modelled as naturals. -/
abbrev Addr := Nat

/-- `sp.keccak (sp.pack (sp.record now=..., s=..., tid=...))` from
`FA2_mint.mint`: the commitment stored for a freshly minted token.  The
hash is modelled as the packed record itself (`pack` is injective and
`keccak` is treated as collision-free), which keeps exactly the data the
source binds: the call timestamp, the minting sender and the token id. -/
structure TokenHash where
  now : Nat
  s : Addr
  tid : Nat
deriving DecidableEq, Repr

/-- The commitment computation of `FA2_mint.mint` (line
`token_hash = sp.keccak(sp.pack(sp.record(now=sp.now, s=sp.sender, tid=token_id)))`). -/
def keccak_pack (now : Nat) (sender : Addr) (tid : Nat) : TokenHash :=
  ⟨now, sender, tid⟩

/-! The error strings of class `Error_message` (prefix `FA2_`). -/

namespace Error_message

def token_undefined : String := "FA2_TOKEN_UNDEFINED"
def insufficient_balance : String := "FA2_INSUFFICIENT_BALANCE"
def not_operator : String := "FA2_NOT_OPERATOR"
def not_owner : String := "FA2_NOT_OWNER"
def bad_value : String := "FA2_BAD_VALUE"
def max_editions_reached : String := "FA2_MAX_EDITIONS_REACHED"
def operators_unsupported : String := "FA2_OPERATORS_UNSUPPORTED"
def not_admin : String := "FA2_NOT_ADMIN"
def paused : String := "FA2_PAUSED"
def locked : String := "FA2_LOCKED"
def bad_amount : String := "FA2_BAD_QUANTITY"
def sale_started : String := "FA2_SALE_STARTED"

end Error_message

/-- How a call can fail.  `message` is `sp.verify(..., message = ...)` /
`sp.failwith`; `wrongCondition` is `sp.verify` *without* a message (used
only by `mutez_transfer`), which fails with SmartPy's default, unnamed
error; `missingKey` is a Michelson big-map read (`map[k]`) on an absent
key. -/
inductive FailWith where
  | message : String → FailWith
  | wrongCondition : FailWith
  | missingKey : FailWith
deriving DecidableEq, Repr

/-- The meta-programming switches of `FA2_config` that affect the
entry-point logic (`support_operator`, `allow_self_transfer`).  The
deployed configuration (`environment_config`) has
`support_operator = true`, `allow_self_transfer = false`. -/
structure FA2_config where
  support_operator : Bool
  allow_self_transfer : Bool
deriving DecidableEq, Repr

/-- The ambient data of one external call: `sp.sender`,
`sp.self_address`, `sp.amount` (the mutez sent with the call), `sp.now`,
and `sp.balance`. -/
structure Ctx where
  sender : Addr
  self_address : Addr
  payment : Nat
  now : Nat
  balance : Nat
deriving DecidableEq, Repr

/-- The contract storage (`FA2_core.__init__`'s `self.init` plus the
`paused`/`locked`/`administrator` fields added by the `FA2` subclass).
`ledger : id -> owner` and `hashes : id -> commitment` are the two
big-maps of the registry; `operators` is the lazy set of
`(owner, operator, token_id)` triples; `all_tokens` is the allocator
counter (`Token_id_set` represents the token set as a `nat` since ids
are consecutive). -/
structure Storage where
  ledger : Nat → Option Addr
  hashes : Nat → Option TokenHash
  operators : Addr × Addr × Nat → Bool
  all_tokens : Nat
  price : Nat
  max_editions : Nat
  script : String
  base_uri : List Nat
  paused : Bool
  locked : Bool
  administrator : Addr

/-- Initial storage, from `FA2_core.__init__` and
`FA2.__init__` (`paused = False, locked = False, administrator = admin`):
empty ledger, empty hashes, empty operator set, `all_tokens = 0`. -/
def init_storage (price max_editions : Nat) (base_uri : List Nat) (admin : Addr) :
    Storage where
  ledger := fun _ => none
  hashes := fun _ => none
  operators := fun _ => false
  all_tokens := 0
  price := price
  max_editions := max_editions
  script := ""
  base_uri := base_uri
  paused := false
  locked := false
  administrator := admin

/-! The lazy operator set of class `Operator_set` (readable layout: the
key is the `(owner, operator, token_id)` record itself). -/

namespace Operator_set

def make_key (owner operator : Addr) (token_id : Nat) : Addr × Addr × Nat :=
  (owner, operator, token_id)

/-- `set[key] = sp.unit`. -/
def add (m : Addr × Addr × Nat → Bool) (owner operator : Addr) (token_id : Nat) :
    Addr × Addr × Nat → Bool :=
  fun k => if k = make_key owner operator token_id then true else m k

/-- `del set[key]` — a Michelson big-map `UPDATE` with `None`, a no-op
when the key is absent. -/
def remove (m : Addr × Addr × Nat → Bool) (owner operator : Addr) (token_id : Nat) :
    Addr × Addr × Nat → Bool :=
  fun k => if k = make_key owner operator token_id then false else m k

/-- `set.contains(key)`. -/
def is_member (m : Addr × Addr × Nat → Bool) (owner operator : Addr)
    (token_id : Nat) : Bool :=
  m (make_key owner operator token_id)

end Operator_set

/-- One `tx` of a transfer batch: `{to_, token_id, amount}`. -/
structure Tx where
  to_ : Addr
  token_id : Nat
  amount : Nat
deriving DecidableEq, Repr

/-- One group of a transfer batch: `{from_, txs}`. -/
structure TransferItem where
  from_ : Addr
  txs : List Tx
deriving DecidableEq, Repr

/-- A `%update_operators` variant element. -/
structure Operator_param where
  owner : Addr
  operator : Addr
  token_id : Nat
deriving DecidableEq, Repr

inductive UpdateOperator where
  | add_operator : Operator_param → UpdateOperator
  | remove_operator : Operator_param → UpdateOperator
deriving DecidableEq, Repr

/-- A `balance_of` request `{owner, token_id}`. -/
structure BalanceRequest where
  owner : Addr
  token_id : Nat
deriving DecidableEq, Repr

/-- A `balance_of` response `{request, balance}`. -/
structure BalanceResponse where
  request : BalanceRequest
  balance : Nat
deriving DecidableEq, Repr

/-! ## Entry points and views (class `FA2_core` and its mixins, as
composed by the final `FA2` class: `is_administrator sender` is
`sender == administrator`, `is_paused` is `data.paused`, `is_locked` is
`data.locked`). -/

namespace FA2

/-- Processing of one `tx` inside one `transfer` group
(`FA2_core.transfer`, inner loop): authorization check (`NOT_OPERATOR`),
existence check on `hashes` (`TOKEN_UNDEFINED`), quantity bound
(`INSUFFICIENT_BALANCE`), then for `amount == 1` the owner check against
`ledger` and the ownership mutation; `amount == 0` is an explicit no-op. -/
def transfer_tx (cfg : FA2_config) (ctx : Ctx) (from_ : Addr) (tx : Tx)
    (s : Storage) : Except FailWith Storage :=
  let sv := decide (from_ = ctx.sender) ||
      Operator_set.is_member s.operators from_ ctx.sender tx.token_id
  let sender_verify :=
    if cfg.allow_self_transfer then sv || decide (ctx.sender = ctx.self_address)
    else sv
  if sender_verify then
    if (s.hashes tx.token_id).isSome then
      if tx.amount ≤ 1 then
        if tx.amount = 1 then
          match s.ledger tx.token_id with
          | none => .error .missingKey
          | some owner =>
            if owner = from_ then
              .ok { s with ledger :=
                      fun k => if k = tx.token_id then some tx.to_ else s.ledger k }
            else .error (.message Error_message.insufficient_balance)
        else .ok s
      else .error (.message Error_message.insufficient_balance)
    else .error (.message Error_message.token_undefined)
  else .error (.message Error_message.not_operator)

/-- The `sp.for tx in transfer.txs` loop. -/
def transfer_txs (cfg : FA2_config) (ctx : Ctx) (from_ : Addr) :
    List Tx → Storage → Except FailWith Storage
  | [], s => .ok s
  | tx :: rest, s =>
    match transfer_tx cfg ctx from_ tx s with
    | .error e => .error e
    | .ok s1 => transfer_txs cfg ctx from_ rest s1

/-- Entry point `transfer` (`FA2_core.transfer`): the outer
`sp.for transfer in params` loop over groups. -/
def transfer (cfg : FA2_config) (ctx : Ctx) :
    List TransferItem → Storage → Except FailWith Storage
  | [], s => .ok s
  | tr :: rest, s =>
    match transfer_txs cfg ctx tr.from_ tr.txs s with
    | .error e => .error e
    | .ok s1 => transfer cfg ctx rest s1

/-- `f_process_request` of entry point `balance_of`: reads are pure, so
the request list is processed against the unmodified storage. -/
def process_request (s : Storage) (req : BalanceRequest) :
    Except FailWith BalanceResponse :=
  if (s.hashes req.token_id).isSome then
    match s.ledger req.token_id with
    | none => .error .missingKey
    | some owner =>
      if owner = req.owner then .ok ⟨req, 1⟩ else .ok ⟨req, 0⟩
  else .error (.message Error_message.token_undefined)

/-- Entry point `balance_of`: maps `process_request` over the requests
and transfers the responses to the callback; the storage itself is not
mutated. -/
def balance_of (s : Storage) :
    List BalanceRequest → Except FailWith (List BalanceResponse)
  | [] => .ok []
  | req :: rest =>
    match process_request s req with
    | .error e => .error e
    | .ok resp =>
      match balance_of s rest with
      | .error e => .error e
      | .ok resps => .ok (resp :: resps)

/-- Offchain view `get_balance` (TZIP-12): `TOKEN_UNDEFINED` when the id
is not in `hashes`, else `1` or `0` by comparing `ledger[token_id]` with
the queried owner. -/
def get_balance (s : Storage) (req : BalanceRequest) : Except FailWith Nat :=
  if (s.hashes req.token_id).isSome then
    match s.ledger req.token_id with
    | none => .error .missingKey
    | some owner => if owner = req.owner then .ok 1 else .ok 0
  else .error (.message Error_message.token_undefined)

/-- Entry point `update_operators` (`FA2_core.update_operators`): when
operator support is compiled in, each variant element checks
`upd.owner == sp.sender` (`NOT_OWNER`) and adds/removes the triple;
otherwise every call fails `OPERATORS_UNSUPPORTED`. -/
def update_operators_list (ctx : Ctx) :
    List UpdateOperator → Storage → Except FailWith Storage
  | [], s => .ok s
  | .add_operator upd :: rest, s =>
    if upd.owner = ctx.sender then
      update_operators_list ctx rest
        { s with operators :=
            Operator_set.add s.operators upd.owner upd.operator upd.token_id }
    else .error (.message Error_message.not_owner)
  | .remove_operator upd :: rest, s =>
    if upd.owner = ctx.sender then
      update_operators_list ctx rest
        { s with operators :=
            Operator_set.remove s.operators upd.owner upd.operator upd.token_id }
    else .error (.message Error_message.not_owner)

def update_operators (cfg : FA2_config) (ctx : Ctx)
    (params : List UpdateOperator) (s : Storage) : Except FailWith Storage :=
  if cfg.support_operator then update_operators_list ctx params s
  else .error (.message Error_message.operators_unsupported)

/-- Entry point `set_mint_parameters` (`FA2_core.set_mint_parameters`):
`NOT_ADMIN` unless the sender is the administrator, `SALE_STARTED`
unless `all_tokens <= 1`, `BAD_QUANTITY` unless
`all_tokens <= max_editions`, then overwrites `max_editions` and
`price`. -/
def set_mint_parameters (ctx : Ctx) (price max_editions : Nat) (s : Storage) :
    Except FailWith Storage :=
  if ctx.sender = s.administrator then
    if s.all_tokens ≤ 1 then
      if s.all_tokens ≤ max_editions then
        .ok { s with max_editions := max_editions, price := price }
      else .error (.message Error_message.bad_amount)
    else .error (.message Error_message.sale_started)
  else .error (.message Error_message.not_admin)

/-- Entry point `set_administrator` (`FA2_administrator`). -/
def set_administrator (ctx : Ctx) (new_admin : Addr) (s : Storage) :
    Except FailWith Storage :=
  if ctx.sender = s.administrator then .ok { s with administrator := new_admin }
  else .error (.message Error_message.not_admin)

/-- Entry point `set_pause` (`FA2_pause`). -/
def set_pause (ctx : Ctx) (b : Bool) (s : Storage) : Except FailWith Storage :=
  if ctx.sender = s.administrator then .ok { s with paused := b }
  else .error (.message Error_message.not_admin)

/-- Entry point `lock` (`FA2_lock`): administrator-only, sets
`locked = true`; no entry point ever writes `false` back. -/
def lock (ctx : Ctx) (s : Storage) : Except FailWith Storage :=
  if ctx.sender = s.administrator then .ok { s with locked := true }
  else .error (.message Error_message.not_admin)

/-- The issuance loop of `FA2_mint.mint` (`sp.while i > 0`), iterated
`n` times: reads `token_id := all_tokens`, re-checks
`token_id < max_editions` (`MAX_EDITIONS_REACHED`), stores the sender
and the commitment, then `Token_id_set.add` performs its defensive
`verify(totalTokens == tokenID)` and advances the counter. -/
def mint_loop (sender : Addr) (now : Nat) :
    Nat → Storage → Except FailWith Storage
  | 0, s => .ok s
  | n + 1, s =>
    let token_id := s.all_tokens
    if token_id < s.max_editions then
      let token_hash := keccak_pack now sender token_id
      let s1 := { s with
        ledger := fun k => if k = token_id then some sender else s.ledger k,
        hashes := fun k => if k = token_id then some token_hash else s.hashes k }
      if s1.all_tokens = token_id then
        mint_loop sender now n { s1 with all_tokens := token_id + 1 }
      else .error (.message "Token-IDs should be consecutive")
    else .error (.message Error_message.max_editions_reached)

/-- Entry point `mint` (`FA2_mint.mint`): `amount` is a signed integer;
the checks, in source order, are `amount > 0` (`BAD_QUANTITY`), not
paused (`PAUSED`), `sp.amount == price * nat_amount` (`BAD_VALUE`), and
`all_tokens + nat_amount <= max_editions` (`MAX_EDITIONS_REACHED`); only
then runs the issuance loop. -/
def mint (ctx : Ctx) (amount : Int) (s : Storage) : Except FailWith Storage :=
  if amount > 0 then
    if s.paused then .error (.message Error_message.paused)
    else
      let nat_amount := amount.toNat
      if ctx.payment = s.price * nat_amount then
        if s.all_tokens + nat_amount ≤ s.max_editions then
          mint_loop ctx.sender ctx.now nat_amount s
        else .error (.message Error_message.max_editions_reached)
      else .error (.message Error_message.bad_value)
  else .error (.message Error_message.bad_amount)

/-- Entry point `set_script` (`FA2_script`): the `LOCKED` check comes
before the `NOT_ADMIN` check. -/
def set_script (ctx : Ctx) (script : String) (s : Storage) :
    Except FailWith Storage :=
  if s.locked then .error (.message Error_message.locked)
  else if ctx.sender = s.administrator then .ok { s with script := script }
  else .error (.message Error_message.not_admin)

/-- Entry point `set_base_uri` (`FA2_base_uri`): same check order as
`set_script`. -/
def set_base_uri (ctx : Ctx) (params : List Nat) (s : Storage) :
    Except FailWith Storage :=
  if s.locked then .error (.message Error_message.locked)
  else if ctx.sender = s.administrator then .ok { s with base_uri := params }
  else .error (.message Error_message.not_admin)

/-- The optional entry point `mutez_transfer` (`transfer_mutez`): both
`sp.verify` calls carry **no** error message, so a failure raises
SmartPy's default unnamed error; on success it emits a single
`sp.send(destination, amount)` and leaves the storage unchanged. -/
def mutez_transfer (ctx : Ctx) (destination : Addr) (amount : Nat)
    (s : Storage) : Except FailWith (Storage × Addr × Nat) :=
  if ctx.sender = s.administrator then
    if amount ≤ ctx.balance then .ok (s, destination, amount)
    else .error .wrongCondition
  else .error .wrongCondition

/-- Offchain view `count_tokens` (`Token_id_set.cardinal`). -/
def count_tokens (s : Storage) : Nat := s.all_tokens

/-- Offchain view `does_token_exist`: `hashes.contains tok`. -/
def does_token_exist (s : Storage) (tok : Nat) : Bool :=
  (s.hashes tok).isSome

/-- Offchain view `all_tokens`: `sp.range(0, all_tokens)`. -/
def all_tokens_view (s : Storage) : List Nat :=
  List.range s.all_tokens

/-- Offchain view `total_supply`: note that the existence check is
`tok < max_editions`, **not** `tok < all_tokens`. -/
def total_supply (s : Storage) (tok : Nat) : Except FailWith Nat :=
  if tok < s.max_editions then .ok 1
  else .error (.message Error_message.token_undefined)

/-- Offchain view `is_operator`. -/
def is_operator (s : Storage) (owner operator : Addr) (token_id : Nat) : Bool :=
  Operator_set.is_member s.operators owner operator token_id

end FA2

/-- The digit-collecting loop of the module-level `bytes_of_nat`:
`while 0 < x: res.push(c[x % 10]); x //= 10` — `push` prepends, so the
decimal digits come out most-significant-first; each digit `d` is the
byte `d + 48`. -/
def bytes_of_nat_loop (x : Nat) (res : List Nat) : List Nat :=
  if h : 0 < x then bytes_of_nat_loop (x / 10) ((x % 10 + 48) :: res) else res
termination_by x
decreasing_by exact Nat.div_lt_self h (by omega)

/-- Module-level `bytes_of_nat`: the decimal-digit byte encoding of a
natural, with `0` encoded as the single digit byte for the character
zero. -/
def bytes_of_nat (params : Nat) : List Nat :=
  let res : List Nat := []
  let res := if params = 0 then (params % 10 + 48) :: res else res
  bytes_of_nat_loop params res

/-- A value of the token-info map built by `FA2.make_metadata`: either a
string constant passed through `sp.utils.bytes_of_string` (modelled as
the string itself), raw bytes, or the commitment hash. -/
inductive MetaVal where
  | str : String → MetaVal
  | bytes : List Nat → MetaVal
  | hashVal : TokenHash → MetaVal
deriving DecidableEq, Repr

/-- The record returned by the `token_metadata` offchain view
(`Token_meta_data.get_type`): the token id and its info map. -/
structure TokenMetadataReply where
  token_id : Nat
  token_info : List (String × MetaVal)
deriving DecidableEq, Repr

namespace FA2

/-- `FA2.make_metadata`: the fixed `decimals`/`name`/`symbol` entries,
the commitment hash and the URI. -/
def make_metadata (symbol name : String) (decimals : Nat)
    (token_hash : TokenHash) (uri : List Nat) : List (String × MetaVal) :=
  [("decimals", .str (toString decimals)),
   ("name", .str name),
   ("symbol", .str symbol),
   ("token_hash", .hashVal token_hash),
   ("", .bytes uri)]

/-- The `token_metadata` offchain view (`FA2_token_metadata`):
`TOKEN_UNDEFINED` unless `token_id < all_tokens`, then reads the
commitment from `hashes` and assembles the fixed name/symbol/decimals,
the hash, and `base_uri ++ bytes_of_nat token_id`. -/
def token_metadata (s : Storage) (token_id : Nat) :
    Except FailWith TokenMetadataReply :=
  if token_id < s.all_tokens then
    match s.hashes token_id with
    | none => .error .missingKey
    | some token_hash =>
      .ok ⟨token_id,
        make_metadata "BOB" "Blocks on Blocks" 0 token_hash
          (s.base_uri ++ bytes_of_nat token_id)⟩
  else .error (.message Error_message.token_undefined)

end FA2

/-! ## The external call surface as one step function -/

/-- One external call to the contract, with its parameters. -/
inductive Call where
  | transfer : List TransferItem → Call
  | balance_of : List BalanceRequest → Call
  | update_operators : List UpdateOperator → Call
  | set_mint_parameters : Nat → Nat → Call
  | set_administrator : Addr → Call
  | set_pause : Bool → Call
  | lock : Call
  | mint : Int → Call
  | set_script : String → Call
  | set_base_uri : List Nat → Call
  | transfer_mutez : Addr → Nat → Call
deriving DecidableEq, Repr

/-- Execute one external call: the storage outcome (emitted internal
operations — the `balance_of` callback and `mutez_transfer`'s `sp.send`
— do not change this contract's storage). -/
def exec (cfg : FA2_config) (ctx : Ctx) : Call → Storage → Except FailWith Storage
  | .transfer params, s => FA2.transfer cfg ctx params s
  | .balance_of reqs, s =>
    match FA2.balance_of s reqs with
    | .error e => .error e
    | .ok _ => .ok s
  | .update_operators params, s => FA2.update_operators cfg ctx params s
  | .set_mint_parameters price max_editions, s =>
    FA2.set_mint_parameters ctx price max_editions s
  | .set_administrator a, s => FA2.set_administrator ctx a s
  | .set_pause b, s => FA2.set_pause ctx b s
  | .lock, s => FA2.lock ctx s
  | .mint amount, s => FA2.mint ctx amount s
  | .set_script sc, s => FA2.set_script ctx sc s
  | .set_base_uri b, s => FA2.set_base_uri ctx b s
  | .transfer_mutez dest amt, s =>
    match FA2.mutez_transfer ctx dest amt s with
    | .error e => .error e
    | .ok (s1, _, _) => .ok s1

/-- The hosting chain's atomic application of a call: a failed call
reverts, leaving the pre-call storage. -/
def applyCall (cfg : FA2_config) (ctx : Ctx) (c : Call) (s : Storage) : Storage :=
  match exec cfg ctx c s with
  | .ok s1 => s1
  | .error _ => s

/-- Apply a sequence of external calls, each with its own context. -/
def applyCalls (cfg : FA2_config) : List (Ctx × Call) → Storage → Storage
  | [], s => s
  | (ctx, c) :: rest, s => applyCalls cfg rest (applyCall cfg ctx c s)

/-- Storages reachable from deployment under a fixed configuration, by
any sequence of external calls. -/
inductive Reachable (cfg : FA2_config) : Storage → Prop
  | init (price max_editions : Nat) (base_uri : List Nat) (admin : Addr) :
      Reachable cfg (init_storage price max_editions base_uri admin)
  | step (ctx : Ctx) (c : Call) {s : Storage} :
      Reachable cfg s → Reachable cfg (applyCall cfg ctx c s)

/-! ## Test fixtures: a deployed storage and a storage with one minted
token, used by witnesses and counterexamples. -/

/-- The deployed configuration (`environment_config`):
`support_operator = true`, `allow_self_transfer = false`. -/
def cfg0 : FA2_config := ⟨true, false⟩

/-- Freshly deployed storage: admin `0`, price `1000000`,
`max_editions = 4096`. -/
def s_init : Storage := init_storage 1000000 4096 [] 0

/-- A storage in which address `1` has minted token `0` (at timestamp
`42`) and nothing else exists. -/
def s_one : Storage :=
  { s_init with
    ledger := fun k => if k = 0 then some 1 else none,
    hashes := fun k => if k = 0 then some (keccak_pack 42 1 0) else none,
    all_tokens := 1 }

/-- A one-minted-token storage whose operator set already contains the
triple `(owner 1, operator 9, token 0)` — the pre-grant state of the C7
counterexample. -/
def s_opr : Storage :=
  { s_one with operators := fun k => decide (k = (1, 9, 0)) }

/-- The authorization condition of one transfer leg, as a proposition:
the caller is the declared `from_`, a delegated operator for
`(from_, caller, token_id)`, or — when self-transfer is enabled — the
contract itself.  This names the Boolean `sender_verify` guard of
`FA2_core.transfer`. -/
def transfer_authorized (cfg : FA2_config) (ctx : Ctx) (from_ : Addr)
    (token_id : Nat) (s : Storage) : Prop :=
  from_ = ctx.sender ∨
  Operator_set.is_member s.operators from_ ctx.sender token_id = true ∨
  (cfg.allow_self_transfer = true ∧ ctx.sender = ctx.self_address)

instance (cfg : FA2_config) (ctx : Ctx) (from_ : Addr) (token_id : Nat)
    (s : Storage) : Decidable (transfer_authorized cfg ctx from_ token_id s) := by
  unfold transfer_authorized
  infer_instance

/-- The registry invariant of the spec's data model: the owner map
(`ledger`) and the commitment map (`hashes`) have identical key-sets,
equal to `[0, all_tokens)`. -/
def RegistryInv (s : Storage) : Prop :=
  (∀ k, (s.ledger k).isSome ↔ k < s.all_tokens) ∧
  (∀ k, (s.hashes k).isSome ↔ k < s.all_tokens)

/-- What a successful `transfer` does to the storage: it may rewrite
owners inside the existing ledger key-set, and touches nothing else —
the ledger's key-set, the hashes map and every other field are
unchanged. -/
def TransferEffects (s s1 : Storage) : Prop :=
  (∀ k, (s1.ledger k).isSome = (s.ledger k).isSome) ∧
  s1.hashes = s.hashes ∧ s1.operators = s.operators ∧
  s1.all_tokens = s.all_tokens ∧ s1.price = s.price ∧
  s1.max_editions = s.max_editions ∧ s1.script = s.script ∧
  s1.base_uri = s.base_uri ∧ s1.paused = s.paused ∧
  s1.locked = s.locked ∧ s1.administrator = s.administrator

/-- What a successful `update_operators` does to the storage: only the
operator set changes. -/
def OperatorEffects (s s1 : Storage) : Prop :=
  s1.ledger = s.ledger ∧ s1.hashes = s.hashes ∧
  s1.all_tokens = s.all_tokens ∧ s1.price = s.price ∧
  s1.max_editions = s.max_editions ∧ s1.script = s.script ∧
  s1.base_uri = s.base_uri ∧ s1.paused = s.paused ∧
  s1.locked = s.locked ∧ s1.administrator = s.administrator

/-! ## Claim theorems -/

/-- **C10.** In `set_script` and `set_base_uri` the lock check precedes
the administrator check: whenever the contract is locked, both calls
fail with `Locked` — never with `NotAdmin` — for every caller, also a
caller that is not the administrator. -/
theorem C10_lock_check_precedes_admin_check
    (ctx : Ctx) (sc : String) (b : List Nat) (s : Storage)
    (h : s.locked = true) :
    FA2.set_script ctx sc s = .error (.message Error_message.locked) ∧
    FA2.set_base_uri ctx b s = .error (.message Error_message.locked) := by
  constructor <;> simp [FA2.set_script, FA2.set_base_uri, h]

/-- Witness for C10 at a concrete locked storage and a non-administrator
caller (sender `7`, administrator `0`). -/
theorem C10_witness :
    FA2.set_script ⟨7, 99, 0, 43, 0⟩ "x" { s_one with locked := true }
      = .error (.message Error_message.locked) ∧
    FA2.set_base_uri ⟨7, 99, 0, 43, 0⟩ [1] { s_one with locked := true }
      = .error (.message Error_message.locked) :=
  C10_lock_check_precedes_admin_check ⟨7, 99, 0, 43, 0⟩ "x" [1]
    { s_one with locked := true } rfl

/-- **C5.** `set_mint_parameters(price, maxEditions)` fails `NotAdmin`
unless the caller is the administrator; fails `SaleStarted` unless
`totalIssued <= 1` (the flagged threshold, not `totalIssued == 0`);
fails `BadQuantity` if the new `maxEditions` is below `totalIssued`;
otherwise overwrites both `price` and `maxEditions`. -/
theorem C5_set_mint_parameters_spec
    (ctx : Ctx) (price max_editions : Nat) (s : Storage) :
    (ctx.sender ≠ s.administrator →
      FA2.set_mint_parameters ctx price max_editions s
        = .error (.message Error_message.not_admin)) ∧
    (ctx.sender = s.administrator → 1 < s.all_tokens →
      FA2.set_mint_parameters ctx price max_editions s
        = .error (.message Error_message.sale_started)) ∧
    (ctx.sender = s.administrator → s.all_tokens ≤ 1 →
      max_editions < s.all_tokens →
      FA2.set_mint_parameters ctx price max_editions s
        = .error (.message Error_message.bad_amount)) ∧
    (ctx.sender = s.administrator → s.all_tokens ≤ 1 →
      s.all_tokens ≤ max_editions →
      FA2.set_mint_parameters ctx price max_editions s
        = .ok { s with max_editions := max_editions, price := price }) := by
  refine ⟨fun h => ?_, fun h h1 => ?_, fun h h1 h2 => ?_, fun h h1 h2 => ?_⟩
  · simp [FA2.set_mint_parameters, h]
  · simp [FA2.set_mint_parameters, h]; omega
  · simp [FA2.set_mint_parameters, h, h1]; omega
  · simp [FA2.set_mint_parameters, h, h1, h2]

/-- Witness for C5: at `totalIssued = 1` (boundary of the flagged
threshold) the administrator successfully rewrites price and ceiling. -/
theorem C5_witness :
    FA2.set_mint_parameters ⟨0, 99, 0, 43, 0⟩ 5 10 s_one
      = .ok { s_one with max_editions := 10, price := 5 } :=
  (C5_set_mint_parameters_spec ⟨0, 99, 0, 43, 0⟩ 5 10 s_one).2.2.2
    rfl (by decide) (by decide)

/-- **C4.** `mint(amount)` fails `BadQuantity` if `amount` is not a
positive integer; fails `Paused` if the pause flag is set; fails
`BadValue` unless the payment equals exactly `price * amount`
(underpayment and overpayment both rejected); fails
`MaxEditionsReached` if `totalIssued + amount > maxEditions`; and on any
failure the applied call mutates no state. -/
theorem C4_mint_error_spec
    (cfg : FA2_config) (ctx : Ctx) (amount : Int) (s : Storage) :
    (amount ≤ 0 →
      FA2.mint ctx amount s = .error (.message Error_message.bad_amount)) ∧
    (0 < amount → s.paused = true →
      FA2.mint ctx amount s = .error (.message Error_message.paused)) ∧
    (0 < amount → s.paused = false →
      ctx.payment ≠ s.price * amount.toNat →
      FA2.mint ctx amount s = .error (.message Error_message.bad_value)) ∧
    (0 < amount → s.paused = false →
      ctx.payment = s.price * amount.toNat →
      s.max_editions < s.all_tokens + amount.toNat →
      FA2.mint ctx amount s
        = .error (.message Error_message.max_editions_reached)) ∧
    (∀ e, FA2.mint ctx amount s = .error e →
      applyCall cfg ctx (.mint amount) s = s) := by
  refine ⟨fun h => ?_, fun h h1 => ?_, fun h h1 h2 => ?_,
    fun h h1 h2 h3 => ?_, fun e he => ?_⟩
  · simp [FA2.mint]; omega
  · simp [FA2.mint, h, h1]
  · simp [FA2.mint, h, h1, h2]
  · simp [FA2.mint, h, h1, h2]; omega
  · simp [applyCall, exec, he]

/-- Witness for C4: minting `3` on the one-token storage with the exact
payment overflows the ceiling `2`, failing `MaxEditionsReached`. -/
theorem C4_witness :
    FA2.mint ⟨1, 99, 3000000, 50, 0⟩ 3 { s_one with max_editions := 2 }
      = .error (.message Error_message.max_editions_reached) :=
  (C4_mint_error_spec cfg0 ⟨1, 99, 3000000, 50, 0⟩ 3
      { s_one with max_editions := 2 }).2.2.2.1
    (by decide) rfl (by decide) (by decide)

/-- **C9, counterexample.** The claim says the withdrawal entry point
fails *with the `NotAdmin` error* for a non-administrator caller.  In
the source both `sp.verify` calls of `mutez_transfer` carry no error
message, so a non-administrator caller (here sender `1`, administrator
`0`) gets SmartPy's default unnamed failure, not the named
`FA2_NOT_ADMIN` error. -/
theorem C9_counterexample :
    FA2.mutez_transfer ⟨1, 99, 0, 43, 100⟩ 5 10 s_init
        = .error .wrongCondition ∧
    FA2.mutez_transfer ⟨1, 99, 0, 43, 100⟩ 5 10 s_init
        ≠ .error (.message Error_message.not_admin) := by
  constructor
  · rfl
  · intro h
    simp [FA2.mutez_transfer, s_init, init_storage] at h

/-- **C9, amended.** `mutez_transfer(destination, amount)` fails (with
SmartPy's default unnamed assertion failure, not a named `NotAdmin`
error) when the caller is not the administrator; fails the same way
when the requested amount exceeds the contract's held balance; and
otherwise sends exactly the requested amount to the destination,
leaving the storage unchanged. -/
theorem C9_mutez_transfer_spec
    (ctx : Ctx) (destination amount : Nat) (s : Storage) :
    (ctx.sender ≠ s.administrator →
      FA2.mutez_transfer ctx destination amount s = .error .wrongCondition) ∧
    (ctx.sender = s.administrator → ctx.balance < amount →
      FA2.mutez_transfer ctx destination amount s = .error .wrongCondition) ∧
    (ctx.sender = s.administrator → amount ≤ ctx.balance →
      FA2.mutez_transfer ctx destination amount s
        = .ok (s, destination, amount)) := by
  refine ⟨fun h => ?_, fun h h1 => ?_, fun h h1 => ?_⟩
  · simp [FA2.mutez_transfer, h]
  · simp [FA2.mutez_transfer, h]; omega
  · simp [FA2.mutez_transfer, h, h1]

/-- Witness for the amended C9: the administrator withdraws `50` out of
a balance of `100`; exactly `(destination, 50)` is sent. -/
theorem C9_witness :
    FA2.mutez_transfer ⟨0, 99, 0, 43, 100⟩ 5 50 s_init
      = .ok (s_init, 5, 50) :=
  (C9_mutez_transfer_spec ⟨0, 99, 0, 43, 100⟩ 5 50 s_init).2.2
    rfl (by decide)

/-- **C7, counterexample.** The claim says a grant immediately followed
by a revoke of the same triple restores the triple's membership to its
pre-grant value.  Starting from a state in which `(1, 9, 0)` is
*already* a member, owner `1` adds and then removes that triple: the
call succeeds and leaves the triple absent, while its pre-grant
membership was present. -/
theorem C7_counterexample :
    s_opr.operators (1, 9, 0) = true ∧
    (applyCall cfg0 ⟨1, 99, 0, 43, 0⟩
        (Call.update_operators
          [UpdateOperator.add_operator ⟨1, 9, 0⟩,
           UpdateOperator.remove_operator ⟨1, 9, 0⟩]) s_opr).operators (1, 9, 0)
      = false := by
  constructor <;> rfl

/-- **C7, amended.** With operator support enabled and the caller equal
to the grant's owner: revoking an absent grant succeeds and leaves the
whole storage (in particular the operator set) unchanged; a grant
immediately followed by a revoke of the same triple always leaves that
triple absent and every other triple unchanged — which restores the
pre-grant membership exactly when the triple was absent before the
grant (and in that case restores the whole storage). -/
theorem C7_revoke_spec
    (cfg : FA2_config) (ctx : Ctx) (upd : Operator_param) (s : Storage)
    (hsupp : cfg.support_operator = true) (hown : upd.owner = ctx.sender) :
    (s.operators (Operator_set.make_key upd.owner upd.operator upd.token_id)
        = false →
      FA2.update_operators cfg ctx [.remove_operator upd] s = .ok s) ∧
    (∃ s2,
      FA2.update_operators cfg ctx [.add_operator upd, .remove_operator upd] s
          = .ok s2 ∧
      s2.operators (Operator_set.make_key upd.owner upd.operator upd.token_id)
          = false ∧
      (∀ k, k ≠ Operator_set.make_key upd.owner upd.operator upd.token_id →
        s2.operators k = s.operators k) ∧
      s2.ledger = s.ledger ∧ s2.hashes = s.hashes ∧
      s2.all_tokens = s.all_tokens) ∧
    (s.operators (Operator_set.make_key upd.owner upd.operator upd.token_id)
        = false →
      FA2.update_operators cfg ctx [.add_operator upd, .remove_operator upd] s
        = .ok s) := by
  have hadd_rem : Operator_set.remove
      (Operator_set.add s.operators upd.owner upd.operator upd.token_id)
      upd.owner upd.operator upd.token_id
      = Operator_set.remove s.operators upd.owner upd.operator upd.token_id := by
    funext k
    by_cases hk : k = Operator_set.make_key upd.owner upd.operator upd.token_id <;>
      simp [Operator_set.remove, Operator_set.add, hk]
  have hrem : s.operators
        (Operator_set.make_key upd.owner upd.operator upd.token_id) = false →
      Operator_set.remove s.operators upd.owner upd.operator upd.token_id
        = s.operators := by
    intro habs
    funext k
    by_cases hk : k = Operator_set.make_key upd.owner upd.operator upd.token_id
    · subst hk
      simp [Operator_set.remove, habs]
    · simp [Operator_set.remove, hk]
  refine ⟨fun habs => ?_, ?_, fun habs => ?_⟩
  · simp only [FA2.update_operators, FA2.update_operators_list, hsupp, if_true,
      hown, if_pos rfl]
    rw [← hown, hrem habs]
  · use { s with operators := Operator_set.remove (Operator_set.add s.operators upd.owner upd.operator upd.token_id) upd.owner upd.operator upd.token_id }
    refine ⟨?_, ?_, ?_, rfl, rfl, rfl⟩
    · simp only [FA2.update_operators, FA2.update_operators_list, hsupp, if_true,
        hown, if_pos rfl]
    · simp [Operator_set.remove]
    · intro k hk
      simp [Operator_set.remove, Operator_set.add, hk]
  · simp only [FA2.update_operators, FA2.update_operators_list, hsupp, if_true,
      hown, if_pos rfl]
    rw [← hown, hadd_rem, hrem habs]

/-- Witness for the amended C7 on the one-token storage (empty operator
set): owner `1` grants and revokes `(1, 9, 0)`; the storage comes back
exactly. -/
theorem C7_witness :
    FA2.update_operators cfg0 ⟨1, 99, 0, 43, 0⟩
        [.add_operator ⟨1, 9, 0⟩, .remove_operator ⟨1, 9, 0⟩] s_one
      = .ok s_one :=
  (C7_revoke_spec cfg0 ⟨1, 99, 0, 43, 0⟩ ⟨1, 9, 0⟩ s_one rfl rfl).2.2 rfl

/-- **C8, counterexample.** The claim says every id-referencing read —
including the per-item supply query — fails `TokenUndefined` whenever
`id >= totalIssued`.  On the freshly deployed storage (`totalIssued = 0`,
`maxEditions = 4096`) token `0` does not exist, yet `total_supply`
returns `1` instead of failing: its check is `id < maxEditions`, not
`id < totalIssued`. -/
theorem C8_counterexample :
    s_init.all_tokens = 0 ∧ FA2.total_supply s_init 0 = .ok 1 := by
  constructor <;> rfl

/-- **C8, amended.** The ownership-balance lookup (`get_balance`) and
the metadata assembly (`token_metadata`) fail `TokenUndefined` whenever
the referenced id does not exist (`id >= totalIssued`, stated via the
registry key-set invariant for `get_balance`); the per-item supply query
(`total_supply`), however, checks the id against `maxEditions`: it
returns the constant `1` for every `id < maxEditions`, minted or not,
and fails `TokenUndefined` exactly when `id >= maxEditions`. -/
theorem C8_query_undefined_spec
    (s : Storage) (req : BalanceRequest) (tok : Nat)
    (hkeys : ∀ k, (s.hashes k).isSome ↔ k < s.all_tokens) :
    (s.all_tokens ≤ req.token_id →
      FA2.get_balance s req = .error (.message Error_message.token_undefined)) ∧
    (s.all_tokens ≤ tok →
      FA2.token_metadata s tok
        = .error (.message Error_message.token_undefined)) ∧
    (tok < s.max_editions → FA2.total_supply s tok = .ok 1) ∧
    (s.max_editions ≤ tok →
      FA2.total_supply s tok
        = .error (.message Error_message.token_undefined)) := by
  refine ⟨fun h => ?_, fun h => ?_, fun h => ?_, fun h => ?_⟩
  · have : ¬ (s.hashes req.token_id).isSome = true := by
      rw [hkeys req.token_id]
      omega
    simp only [FA2.get_balance]
    simp [this]
  · simp [FA2.token_metadata]
    omega
  · simp [FA2.total_supply, h]
  · simp [FA2.total_supply]
    omega

/-- Witness for the amended C8 on the one-token storage: token `5` is
unminted, so `get_balance` and `token_metadata` fail `TokenUndefined`,
yet `total_supply` still answers `1` because `5 < maxEditions = 4096`. -/
theorem C8_witness :
    (FA2.get_balance s_one ⟨1, 5⟩
        = .error (.message Error_message.token_undefined)) ∧
    (FA2.token_metadata s_one 5
        = .error (.message Error_message.token_undefined)) ∧
    (FA2.total_supply s_one 5 = .ok 1) := by
  have h := C8_query_undefined_spec s_one ⟨1, 5⟩ 5 (by
    intro k
    by_cases hk : k = 0 <;> simp [s_one, s_init, init_storage, hk])
  exact ⟨h.1 (by decide), h.2.1 (by decide), h.2.2.1 (by decide)⟩

/-- The `sender_verify` Boolean of `FA2_core.transfer` is true exactly
when `transfer_authorized` holds. -/
theorem transfer_tx_guard_iff (cfg : FA2_config) (ctx : Ctx) (from_ : Addr)
    (tid : Nat) (s : Storage) :
    ((if cfg.allow_self_transfer then
        (decide (from_ = ctx.sender) ||
          Operator_set.is_member s.operators from_ ctx.sender tid) ||
          decide (ctx.sender = ctx.self_address)
      else
        decide (from_ = ctx.sender) ||
          Operator_set.is_member s.operators from_ ctx.sender tid) = true) ↔
      transfer_authorized cfg ctx from_ tid s := by
  cases hc : cfg.allow_self_transfer <;>
    simp [transfer_authorized, hc, or_assoc]

/-- `FA2_core.transfer`'s leg processing, rephrased with the
authorization guard as the proposition `transfer_authorized`. -/
theorem transfer_tx_eq (cfg : FA2_config) (ctx : Ctx) (from_ : Addr)
    (tx : Tx) (s : Storage) :
    FA2.transfer_tx cfg ctx from_ tx s =
      if transfer_authorized cfg ctx from_ tx.token_id s then
        if (s.hashes tx.token_id).isSome then
          if tx.amount ≤ 1 then
            if tx.amount = 1 then
              match s.ledger tx.token_id with
              | none => .error .missingKey
              | some owner =>
                if owner = from_ then
                  .ok { s with ledger :=
                    fun k => if k = tx.token_id then some tx.to_ else s.ledger k }
                else .error (.message Error_message.insufficient_balance)
            else .ok s
          else .error (.message Error_message.insufficient_balance)
        else .error (.message Error_message.token_undefined)
      else .error (.message Error_message.not_operator) := by
  simp only [FA2.transfer_tx]
  by_cases hauth : transfer_authorized cfg ctx from_ tx.token_id s
  · rw [if_pos ((transfer_tx_guard_iff cfg ctx from_ tx.token_id s).mpr hauth),
      if_pos hauth]
  · rw [if_neg (fun hc =>
        hauth ((transfer_tx_guard_iff cfg ctx from_ tx.token_id s).mp hc)),
      if_neg hauth]

/-- **C2.** One transfer leg, processed in input order: a quantity-1
leg succeeds iff the caller is authorized (declared `from_`, delegated
operator, or — when enabled — the contract itself) and the token exists
and its current owner is the declared `from_`, in which case exactly
that token's ownership moves to the leg's `to_`; an authorized leg on
an existing token with quantity above 1 fails `InsufficientBalance`; an
authorized quantity-0 leg on an existing token changes no state; an
unauthorized leg fails `NotOperator`; a failing leg aborts the rest of
its batch with the same named error; and a failed batch, applied
atomically by the chain, leaves every ownership unchanged — including
mutations made by earlier legs of the same call. -/
theorem C2_transfer_batch_spec
    (cfg : FA2_config) (ctx : Ctx) (from_ : Addr) (tx : Tx) (s : Storage) :
    (tx.amount = 1 →
      ((∃ s1, FA2.transfer_tx cfg ctx from_ tx s = .ok s1) ↔
        (transfer_authorized cfg ctx from_ tx.token_id s ∧
         (s.hashes tx.token_id).isSome = true ∧
         s.ledger tx.token_id = some from_))) ∧
    (tx.amount = 1 → ∀ s1, FA2.transfer_tx cfg ctx from_ tx s = .ok s1 →
      (s1.ledger tx.token_id = some tx.to_ ∧
       (∀ k, k ≠ tx.token_id → s1.ledger k = s.ledger k) ∧
       s1.hashes = s.hashes)) ∧
    (1 < tx.amount → transfer_authorized cfg ctx from_ tx.token_id s →
      (s.hashes tx.token_id).isSome = true →
      FA2.transfer_tx cfg ctx from_ tx s
        = .error (.message Error_message.insufficient_balance)) ∧
    (tx.amount = 0 → transfer_authorized cfg ctx from_ tx.token_id s →
      (s.hashes tx.token_id).isSome = true →
      FA2.transfer_tx cfg ctx from_ tx s = .ok s) ∧
    (¬ transfer_authorized cfg ctx from_ tx.token_id s →
      FA2.transfer_tx cfg ctx from_ tx s
        = .error (.message Error_message.not_operator)) ∧
    (∀ e rest, FA2.transfer_tx cfg ctx from_ tx s = .error e →
      FA2.transfer_txs cfg ctx from_ (tx :: rest) s = .error e) ∧
    (∀ params e, FA2.transfer cfg ctx params s = .error e →
      applyCall cfg ctx (.transfer params) s = s) := by
  refine ⟨fun h1 => ?_, fun h1 s1 hok => ?_, fun h1 hauth hex => ?_,
    fun h0 hauth hex => ?_, fun hnauth => ?_, fun e rest herr => ?_,
    fun params e herr => ?_⟩
  · by_cases hauth : transfer_authorized cfg ctx from_ tx.token_id s
    · cases hex : (s.hashes tx.token_id).isSome
      · simp [transfer_tx_eq, hauth, hex, h1]
      · cases hled : s.ledger tx.token_id with
        | none => simp [transfer_tx_eq, hauth, hex, h1, hled]
        | some owner =>
          by_cases how : owner = from_
          · subst how
            simp [transfer_tx_eq, hauth, hex, h1, hled]
          · simp [transfer_tx_eq, hauth, hex, h1, hled, how]
    · simp [transfer_tx_eq, hauth]
  · by_cases hauth : transfer_authorized cfg ctx from_ tx.token_id s
    · cases hex : (s.hashes tx.token_id).isSome
      · simp [transfer_tx_eq, hauth, hex, h1] at hok
      · cases hled : s.ledger tx.token_id with
        | none => simp [transfer_tx_eq, hauth, hex, h1, hled] at hok
        | some owner =>
          by_cases how : owner = from_
          · subst how
            simp [transfer_tx_eq, hauth, hex, h1, hled] at hok
            subst hok
            refine ⟨by simp, fun k hk => by simp [hk], rfl⟩
          · simp [transfer_tx_eq, hauth, hex, h1, hled, how] at hok
    · simp [transfer_tx_eq, hauth] at hok
  · have hne : ¬ tx.amount ≤ 1 := by omega
    simp [transfer_tx_eq, hauth, hex, hne]
  · simp [transfer_tx_eq, hauth, hex, h0]
  · simp [transfer_tx_eq, hnauth]
  · simp [FA2.transfer_txs, herr]
  · simp [applyCall, exec, herr]

/-- Witness for C2 on the one-token storage: owner `1` moves token `0`
to `5`; the leg succeeds and the new owner is `5`. -/
theorem C2_witness :
    (∃ s1, FA2.transfer_tx cfg0 ⟨1, 99, 0, 43, 0⟩ 1 ⟨5, 0, 1⟩ s_one
        = .ok s1) ∧
    FA2.transfer_tx cfg0 ⟨7, 99, 0, 43, 0⟩ 1 ⟨5, 0, 1⟩ s_one
      = .error (.message Error_message.not_operator) := by
  have h := C2_transfer_batch_spec cfg0 ⟨1, 99, 0, 43, 0⟩ 1 ⟨5, 0, 1⟩ s_one
  have h7 := C2_transfer_batch_spec cfg0 ⟨7, 99, 0, 43, 0⟩ 1 ⟨5, 0, 1⟩ s_one
  constructor
  · exact (h.1 rfl).mpr ⟨Or.inl rfl, rfl, rfl⟩
  · exact h7.2.2.2.2.1 (by
      intro hc
      rcases hc with hc | hc | hc
      · exact absurd hc (by decide)
      · exact absurd hc (by decide)
      · exact absurd hc.1 (by decide))

/-- The issuance loop of `FA2_mint.mint`, run `n` times with supply
headroom, succeeds and writes exactly the ids
`[all_tokens, all_tokens + n)`: each gets the minting sender as owner
and `keccak_pack now sender id` as commitment; every other ledger and
hash entry, and every non-registry field, is untouched. -/
theorem mint_loop_spec (sender : Addr) (now : Nat) (n : Nat) (s : Storage)
    (hcap : s.all_tokens + n ≤ s.max_editions) :
    ∃ s1, FA2.mint_loop sender now n s = .ok s1 ∧
      s1.all_tokens = s.all_tokens + n ∧
      (∀ id, s.all_tokens ≤ id → id < s.all_tokens + n →
        s1.ledger id = some sender ∧
        s1.hashes id = some (keccak_pack now sender id)) ∧
      (∀ id, id < s.all_tokens ∨ s.all_tokens + n ≤ id →
        s1.ledger id = s.ledger id ∧ s1.hashes id = s.hashes id) ∧
      s1.operators = s.operators ∧ s1.price = s.price ∧
      s1.max_editions = s.max_editions ∧ s1.script = s.script ∧
      s1.base_uri = s.base_uri ∧ s1.paused = s.paused ∧
      s1.locked = s.locked ∧ s1.administrator = s.administrator := by
  induction n generalizing s with
  | zero =>
    exact ⟨s, rfl, by omega, fun id h1 h2 => by omega,
      fun id h => ⟨rfl, rfl⟩, rfl, rfl, rfl, rfl, rfl, rfl, rfl, rfl⟩
  | succ n ih =>
    have hlt : s.all_tokens < s.max_editions := by omega
    set s2 : Storage := { s with
        ledger := fun k => if k = s.all_tokens then some sender else s.ledger k,
        hashes := fun k => if k = s.all_tokens
          then some (keccak_pack now sender s.all_tokens) else s.hashes k,
        all_tokens := s.all_tokens + 1 } with hs2
    have hat2 : s2.all_tokens = s.all_tokens + 1 := rfl
    have hme2 : s2.max_editions = s.max_editions := rfl
    have hL : ∀ k, s2.ledger k
        = if k = s.all_tokens then some sender else s.ledger k := fun k => rfl
    have hH : ∀ k, s2.hashes k = if k = s.all_tokens
        then some (keccak_pack now sender s.all_tokens) else s.hashes k :=
      fun k => rfl
    obtain ⟨s1, hrun, hat, hnew, hold, hops, hpr, hme, hsc, hbu, hpa, hlo, had⟩ :=
      ih s2 (by omega)
    refine ⟨s1, ?_, by omega, ?_, ?_, hops, hpr, by omega, hsc, hbu, hpa, hlo,
      had⟩
    · simpa [FA2.mint_loop, hlt, hs2] using hrun
    · intro id hlow hhigh
      by_cases hid : id = s.all_tokens
      · subst hid
        have h1 := hold s.all_tokens (Or.inl (by omega))
        rw [h1.1, h1.2, hL, hH]
        simp
      · exact hnew id (by omega) (by omega)
    · intro id hid
      have hne : id ≠ s.all_tokens := by omega
      have h1 := hold id (by omega)
      rw [h1.1, h1.2, hL, hH]
      simp [hne]

/-- **C1.** When `mint(amount)`'s preconditions hold — `amount`
converts to the positive natural `n`, the contract is not paused, the
payment is exactly `price * n`, and `totalIssued + n <= maxEditions` —
the call succeeds; afterwards `totalIssued` has grown by exactly `n`,
the newly created ids are exactly the consecutive range
`[old totalIssued, old totalIssued + n)` (every id in the range is
fresh in the registry, everything outside it is untouched), each new id
is owned by the minting caller, and each new id's commitment is
`keccak_pack ctx.now ctx.sender id` — the packed record of the call's
timestamp, the caller and the id, so only the id varies across the
batch's commitments. -/
theorem C1_mint_spec (ctx : Ctx) (amount : Int) (s : Storage) (n : Nat)
    (hn : amount = (n : Int)) (hpos : 0 < n) (hp : s.paused = false)
    (hpay : ctx.payment = s.price * n)
    (hcap : s.all_tokens + n ≤ s.max_editions) :
    ∃ s1, FA2.mint ctx amount s = .ok s1 ∧
      s1.all_tokens = s.all_tokens + n ∧
      (∀ id, s.all_tokens ≤ id → id < s.all_tokens + n →
        s1.ledger id = some ctx.sender ∧
        s1.hashes id = some (keccak_pack ctx.now ctx.sender id)) ∧
      (∀ id, id < s.all_tokens ∨ s.all_tokens + n ≤ id →
        s1.ledger id = s.ledger id ∧ s1.hashes id = s.hashes id) := by
  subst hn
  have htn : ((n : Int)).toNat = n := Int.toNat_natCast n
  obtain ⟨s1, hrun, hat, hnew, hold, _⟩ :=
    mint_loop_spec ctx.sender ctx.now n s hcap
  refine ⟨s1, ?_, hat, hnew, hold⟩
  have hgt : ((n : Int)) > 0 := by exact_mod_cast hpos
  simp only [FA2.mint, htn]
  rw [if_pos hgt, if_neg (by simp [hp]), if_pos hpay, if_pos hcap]
  exact hrun

/-- Witness for C1: address `1` mints `2` tokens on the fresh storage,
paying `2000000`; tokens `0` and `1` appear, owned by `1`, with
commitments varying only in the id. -/
theorem C1_witness :
    ∃ s1, FA2.mint ⟨1, 99, 2000000, 42, 0⟩ 2 s_init = .ok s1 ∧
      s1.all_tokens = 0 + 2 ∧
      s1.ledger 0 = some 1 ∧ s1.ledger 1 = some 1 ∧
      s1.hashes 0 = some (keccak_pack 42 1 0) ∧
      s1.hashes 1 = some (keccak_pack 42 1 1) := by
  obtain ⟨s1, hrun, hat, hnew, hold⟩ :=
    C1_mint_spec ⟨1, 99, 2000000, 42, 0⟩ 2 s_init 2 rfl (by decide) rfl
      (by decide) (by decide)
  exact ⟨s1, hrun, hat, (hnew 0 (by decide) (by decide)).1,
    (hnew 1 (by decide) (by decide)).1, (hnew 0 (by decide) (by decide)).2,
    (hnew 1 (by decide) (by decide)).2⟩

theorem transferEffects_refl (s : Storage) : TransferEffects s s :=
  ⟨fun _ => rfl, rfl, rfl, rfl, rfl, rfl, rfl, rfl, rfl, rfl, rfl⟩

theorem transferEffects_comp {s s1 s2 : Storage}
    (h1 : TransferEffects s s1) (h2 : TransferEffects s1 s2) :
    TransferEffects s s2 := by
  obtain ⟨a1, b1, c1, d1, e1, f1, g1, i1, j1, k1, l1⟩ := h1
  obtain ⟨a2, b2, c2, d2, e2, f2, g2, i2, j2, k2, l2⟩ := h2
  exact ⟨fun k => (a2 k).trans (a1 k), b2.trans b1, c2.trans c1, d2.trans d1,
    e2.trans e1, f2.trans f1, g2.trans g1, i2.trans i1, j2.trans j1,
    k2.trans k1, l2.trans l1⟩

theorem operatorEffects_refl (s : Storage) : OperatorEffects s s :=
  ⟨rfl, rfl, rfl, rfl, rfl, rfl, rfl, rfl, rfl, rfl⟩

/-- A successful transfer leg only rewrites an existing owner entry. -/
theorem transfer_tx_ok_effects {cfg : FA2_config} {ctx : Ctx} {from_ : Addr}
    {tx : Tx} {s s1 : Storage}
    (h : FA2.transfer_tx cfg ctx from_ tx s = .ok s1) :
    TransferEffects s s1 := by
  rw [transfer_tx_eq] at h
  by_cases hauth : transfer_authorized cfg ctx from_ tx.token_id s
  · by_cases hex : (s.hashes tx.token_id).isSome = true
    · by_cases hle : tx.amount ≤ 1
      · by_cases h1 : tx.amount = 1
        · cases hled : s.ledger tx.token_id with
          | none => simp [hauth, hex, hle, h1, hled] at h
          | some owner =>
            by_cases how : owner = from_
            · subst how
              simp [hauth, hex, hle, h1, hled] at h
              subst h
              refine ⟨fun k => ?_, rfl, rfl, rfl, rfl, rfl, rfl, rfl, rfl,
                rfl, rfl⟩
              by_cases hk : k = tx.token_id
              · subst hk
                simp [hled]
              · simp [hk]
            · simp [hauth, hex, hle, h1, hled, how] at h
        · simp only [hauth, hex, hle, h1, if_true, if_false, if_pos, if_neg,
            not_false_iff] at h
          simp [hauth, hex, hle, h1] at h
          subst h
          exact transferEffects_refl _
      · simp [hauth, hex, hle] at h
    · simp [hauth, hex] at h
  · simp [hauth] at h

/-- A successful `sp.for tx` loop over one group's legs only rewrites
existing owner entries. -/
theorem transfer_txs_ok_effects {cfg : FA2_config} {ctx : Ctx} {from_ : Addr}
    {txs : List Tx} {s s1 : Storage}
    (h : FA2.transfer_txs cfg ctx from_ txs s = .ok s1) :
    TransferEffects s s1 := by
  induction txs generalizing s with
  | nil =>
    simp only [FA2.transfer_txs] at h
    cases h
    exact transferEffects_refl _
  | cons tx rest ih =>
    simp only [FA2.transfer_txs] at h
    cases htx : FA2.transfer_tx cfg ctx from_ tx s with
    | error e => rw [htx] at h; cases h
    | ok s2 =>
      rw [htx] at h
      exact transferEffects_comp (transfer_tx_ok_effects htx) (ih h)

/-- A successful `transfer` batch only rewrites existing owner
entries. -/
theorem transfer_ok_effects {cfg : FA2_config} {ctx : Ctx}
    {params : List TransferItem} {s s1 : Storage}
    (h : FA2.transfer cfg ctx params s = .ok s1) :
    TransferEffects s s1 := by
  induction params generalizing s with
  | nil =>
    simp only [FA2.transfer] at h
    cases h
    exact transferEffects_refl _
  | cons tr rest ih =>
    simp only [FA2.transfer] at h
    cases htr : FA2.transfer_txs cfg ctx tr.from_ tr.txs s with
    | error e => rw [htr] at h; cases h
    | ok s2 =>
      rw [htr] at h
      exact transferEffects_comp (transfer_txs_ok_effects htr) (ih h)

/-- The `update_operators` element loop changes only the operator
set. -/
theorem update_operators_list_ok_effects {ctx : Ctx}
    {params : List UpdateOperator} {s s1 : Storage}
    (h : FA2.update_operators_list ctx params s = .ok s1) :
    OperatorEffects s s1 := by
  induction params generalizing s with
  | nil =>
    simp only [FA2.update_operators_list] at h
    cases h
    exact operatorEffects_refl _
  | cons upd rest ih =>
    cases upd with
    | add_operator p =>
      simp only [FA2.update_operators_list] at h
      by_cases hown : p.owner = ctx.sender
      · rw [if_pos hown] at h
        obtain ⟨a, b, c, d, e, f, g, i, j, k⟩ := ih h
        exact ⟨a, b, c, d, e, f, g, i, j, k⟩
      · rw [if_neg hown] at h
        cases h
    | remove_operator p =>
      simp only [FA2.update_operators_list] at h
      by_cases hown : p.owner = ctx.sender
      · rw [if_pos hown] at h
        obtain ⟨a, b, c, d, e, f, g, i, j, k⟩ := ih h
        exact ⟨a, b, c, d, e, f, g, i, j, k⟩
      · rw [if_neg hown] at h
        cases h

/-- A successful `update_operators` changes only the operator set. -/
theorem update_operators_ok_effects {cfg : FA2_config} {ctx : Ctx}
    {params : List UpdateOperator} {s s1 : Storage}
    (h : FA2.update_operators cfg ctx params s = .ok s1) :
    OperatorEffects s s1 := by
  rw [FA2.update_operators] at h
  by_cases hsupp : cfg.support_operator = true
  · rw [if_pos hsupp] at h
    exact update_operators_list_ok_effects h
  · rw [if_neg hsupp] at h
    cases h

/-- A successful `mint` call minted some positive `n` tokens: the
counter advanced by `n`, exactly the ids
`[old all_tokens, old all_tokens + n)` were written (owner and
commitment), and every other entry and field is unchanged. -/
theorem mint_ok_effects {ctx : Ctx} {amount : Int} {s s1 : Storage}
    (h : FA2.mint ctx amount s = .ok s1) :
    ∃ n, 0 < n ∧ s1.all_tokens = s.all_tokens + n ∧
      (∀ k, s.all_tokens ≤ k → k < s.all_tokens + n →
        s1.ledger k = some ctx.sender ∧
        s1.hashes k = some (keccak_pack ctx.now ctx.sender k)) ∧
      (∀ k, k < s.all_tokens ∨ s.all_tokens + n ≤ k →
        s1.ledger k = s.ledger k ∧ s1.hashes k = s.hashes k) ∧
      s1.operators = s.operators ∧ s1.price = s.price ∧
      s1.max_editions = s.max_editions ∧ s1.script = s.script ∧
      s1.base_uri = s.base_uri ∧ s1.paused = s.paused ∧
      s1.locked = s.locked ∧ s1.administrator = s.administrator := by
  simp only [FA2.mint] at h
  by_cases hgt : amount > 0
  · rw [if_pos hgt] at h
    by_cases hp : s.paused = true
    · rw [if_pos hp] at h
      cases h
    · rw [if_neg hp] at h
      by_cases hpay : ctx.payment = s.price * amount.toNat
      · rw [if_pos hpay] at h
        by_cases hcap : s.all_tokens + amount.toNat ≤ s.max_editions
        · rw [if_pos hcap] at h
          obtain ⟨s2, hrun, hat, hnew, hold, hops, hpr, hme, hsc, hbu, hpa,
            hlo, had⟩ := mint_loop_spec ctx.sender ctx.now amount.toNat s hcap
          rw [hrun] at h
          cases h
          exact ⟨amount.toNat, by omega, hat, hnew, hold, hops, hpr, hme, hsc,
            hbu, hpa, hlo, had⟩
        · rw [if_neg hcap] at h
          cases h
      · rw [if_neg hpay] at h
        cases h
  · rw [if_neg hgt] at h
    cases h

/-- Every applied call preserves the registry invariant. -/
theorem applyCall_registry_inv (cfg : FA2_config) (ctx : Ctx) (c : Call)
    (s : Storage) (h : RegistryInv s) :
    RegistryInv (applyCall cfg ctx c s) := by
  cases c with
  | transfer params =>
    cases hr : FA2.transfer cfg ctx params s with
    | error e => simpa [applyCall, exec, hr] using h
    | ok s1 =>
      simp only [applyCall, exec, hr]
      obtain ⟨a, hH, _, hat, _⟩ := transfer_ok_effects hr
      obtain ⟨hL0, hH0⟩ := h
      refine ⟨fun k => ?_, fun k => ?_⟩
      · rw [a k, hat]
        exact hL0 k
      · rw [hH, hat]
        exact hH0 k
  | balance_of reqs =>
    cases hb : FA2.balance_of s reqs <;> simpa [applyCall, exec, hb] using h
  | update_operators params =>
    cases hr : FA2.update_operators cfg ctx params s with
    | error e => simpa [applyCall, exec, hr] using h
    | ok s1 =>
      simp only [applyCall, exec, hr]
      obtain ⟨hL, hH, hat, _⟩ := update_operators_ok_effects hr
      obtain ⟨hL0, hH0⟩ := h
      refine ⟨fun k => ?_, fun k => ?_⟩
      · rw [hL, hat]
        exact hL0 k
      · rw [hH, hat]
        exact hH0 k
  | set_mint_parameters price me =>
    simp only [applyCall, exec, FA2.set_mint_parameters]
    split_ifs <;> exact h
  | set_administrator a =>
    simp only [applyCall, exec, FA2.set_administrator]
    split_ifs <;> exact h
  | set_pause b =>
    simp only [applyCall, exec, FA2.set_pause]
    split_ifs <;> exact h
  | lock =>
    simp only [applyCall, exec, FA2.lock]
    split_ifs <;> exact h
  | mint amount =>
    cases hr : FA2.mint ctx amount s with
    | error e => simpa [applyCall, exec, hr] using h
    | ok s1 =>
      simp only [applyCall, exec, hr]
      obtain ⟨n, hn, hat, hnew, hold, _⟩ := mint_ok_effects hr
      obtain ⟨hL0, hH0⟩ := h
      refine ⟨fun k => ?_, fun k => ?_⟩
      · by_cases hk : k < s.all_tokens
        · rw [(hold k (Or.inl hk)).1, hat]
          exact iff_of_true ((hL0 k).mpr hk) (by omega)
        · by_cases hk2 : k < s.all_tokens + n
          · rw [(hnew k (by omega) hk2).1, hat]
            exact iff_of_true rfl hk2
          · rw [(hold k (Or.inr (by omega))).1, hat]
            exact iff_of_false (fun hx => absurd ((hL0 k).mp hx) (by omega))
              (by omega)
      · by_cases hk : k < s.all_tokens
        · rw [(hold k (Or.inl hk)).2, hat]
          exact iff_of_true ((hH0 k).mpr hk) (by omega)
        · by_cases hk2 : k < s.all_tokens + n
          · rw [(hnew k (by omega) hk2).2, hat]
            exact iff_of_true rfl hk2
          · rw [(hold k (Or.inr (by omega))).2, hat]
            exact iff_of_false (fun hx => absurd ((hH0 k).mp hx) (by omega))
              (by omega)
  | set_script sc =>
    simp only [applyCall, exec, FA2.set_script]
    split_ifs <;> exact h
  | set_base_uri b =>
    simp only [applyCall, exec, FA2.set_base_uri]
    split_ifs <;> exact h
  | transfer_mutez dest amt =>
    simp only [applyCall, exec, FA2.mutez_transfer]
    split_ifs <;> exact h

/-- No applied call ever rewrites the commitment of an already existing
token: transfers mutate only the owner entry, and minting writes only
fresh ids. -/
theorem applyCall_hashes_stable (cfg : FA2_config) (ctx : Ctx) (c : Call)
    (s : Storage) (k : Nat) (hk : k < s.all_tokens) :
    (applyCall cfg ctx c s).hashes k = s.hashes k := by
  cases c with
  | transfer params =>
    cases hr : FA2.transfer cfg ctx params s with
    | error e => simp [applyCall, exec, hr]
    | ok s1 =>
      simp only [applyCall, exec, hr]
      rw [(transfer_ok_effects hr).2.1]
  | balance_of reqs =>
    cases hb : FA2.balance_of s reqs <;> simp [applyCall, exec, hb]
  | update_operators params =>
    cases hr : FA2.update_operators cfg ctx params s with
    | error e => simp [applyCall, exec, hr]
    | ok s1 =>
      simp only [applyCall, exec, hr]
      rw [(update_operators_ok_effects hr).2.1]
  | set_mint_parameters price me =>
    simp only [applyCall, exec, FA2.set_mint_parameters]
    split_ifs <;> rfl
  | set_administrator a =>
    simp only [applyCall, exec, FA2.set_administrator]
    split_ifs <;> rfl
  | set_pause b =>
    simp only [applyCall, exec, FA2.set_pause]
    split_ifs <;> rfl
  | lock =>
    simp only [applyCall, exec, FA2.lock]
    split_ifs <;> rfl
  | mint amount =>
    cases hr : FA2.mint ctx amount s with
    | error e => simp [applyCall, exec, hr]
    | ok s1 =>
      simp only [applyCall, exec, hr]
      obtain ⟨n, hn, hat, hnew, hold, _⟩ := mint_ok_effects hr
      exact (hold k (Or.inl hk)).2
  | set_script sc =>
    simp only [applyCall, exec, FA2.set_script]
    split_ifs <;> rfl
  | set_base_uri b =>
    simp only [applyCall, exec, FA2.set_base_uri]
    split_ifs <;> rfl
  | transfer_mutez dest amt =>
    simp only [applyCall, exec, FA2.mutez_transfer]
    split_ifs <;> rfl

/-- Once `locked` is set, no applied call ever writes it back to
`false`. -/
theorem applyCall_locked_mono (cfg : FA2_config) (ctx : Ctx) (c : Call)
    (s : Storage) (h : s.locked = true) :
    (applyCall cfg ctx c s).locked = true := by
  cases c with
  | transfer params =>
    cases hr : FA2.transfer cfg ctx params s with
    | error e => simpa [applyCall, exec, hr] using h
    | ok s1 =>
      simp only [applyCall, exec, hr]
      rw [(transfer_ok_effects hr).2.2.2.2.2.2.2.2.2.1]
      exact h
  | balance_of reqs =>
    cases hb : FA2.balance_of s reqs <;> simpa [applyCall, exec, hb] using h
  | update_operators params =>
    cases hr : FA2.update_operators cfg ctx params s with
    | error e => simpa [applyCall, exec, hr] using h
    | ok s1 =>
      simp only [applyCall, exec, hr]
      rw [(update_operators_ok_effects hr).2.2.2.2.2.2.2.2.1]
      exact h
  | set_mint_parameters price me =>
    simp only [applyCall, exec, FA2.set_mint_parameters]
    split_ifs <;> exact h
  | set_administrator a =>
    simp only [applyCall, exec, FA2.set_administrator]
    split_ifs <;> exact h
  | set_pause b =>
    simp only [applyCall, exec, FA2.set_pause]
    split_ifs <;> exact h
  | lock =>
    simp only [applyCall, exec, FA2.lock]
    split_ifs <;> first | rfl | exact h
  | mint amount =>
    cases hr : FA2.mint ctx amount s with
    | error e => simpa [applyCall, exec, hr] using h
    | ok s1 =>
      simp only [applyCall, exec, hr]
      obtain ⟨n, hn, hat, hnew, hold, hops, hpr, hme, hsc, hbu, hpa, hlo,
        had⟩ := mint_ok_effects hr
      rw [hlo]
      exact h
  | set_script sc =>
    simp only [applyCall, exec, FA2.set_script]
    split_ifs <;> exact h
  | set_base_uri b =>
    simp only [applyCall, exec, FA2.set_base_uri]
    split_ifs <;> exact h
  | transfer_mutez dest amt =>
    simp only [applyCall, exec, FA2.mutez_transfer]
    split_ifs <;> exact h

/-- **C3.** In every reachable state the owner map (`ledger`) and the
commitment map (`hashes`) have identical key-sets, equal to
`[0, totalIssued)`; every applied operation preserves this invariant
(reachability is closed under `applyCall`, so the invariant holding in
every reachable state *is* its preservation); and the commitment stored
for an existing id is never changed by any subsequent operation —
transfers mutate only the owner entry. -/
theorem C3_registry_invariant (cfg : FA2_config) (s : Storage)
    (h : Reachable cfg s) :
    RegistryInv s ∧
    (∀ ctx c k, k < s.all_tokens →
      (applyCall cfg ctx c s).hashes k = s.hashes k) := by
  constructor
  · induction h with
    | init price me bu admin =>
      exact ⟨fun k => by simp [init_storage], fun k => by simp [init_storage]⟩
    | step ctx c hs ih => exact applyCall_registry_inv cfg ctx c _ ih
  · intro ctx c k hk
    exact applyCall_hashes_stable cfg ctx c s k hk

/-- Witness for C3 at the deployed storage (reachable by the `init`
constructor). -/
theorem C3_witness :
    RegistryInv s_init ∧
    (∀ ctx c k, k < s_init.all_tokens →
      (applyCall cfg0 ctx c s_init).hashes k = s_init.hashes k) :=
  C3_registry_invariant cfg0 s_init (Reachable.init 1000000 4096 [] 0)

/-- **C6.** The lock latch is one-way: when `lock()` has succeeded (its
admin check passed), `locked` is set; after any sequence of further
external calls, `locked` is still set, and `set_script` and
`set_base_uri` fail with `Locked` for every caller. -/
theorem C6_lock_latch (cfg : FA2_config) (ctx : Ctx) (s s1 : Storage)
    (h : FA2.lock ctx s = .ok s1) :
    s1.locked = true ∧
    ∀ calls : List (Ctx × Call),
      (applyCalls cfg calls s1).locked = true ∧
      (∀ ctx2 sc, FA2.set_script ctx2 sc (applyCalls cfg calls s1)
        = .error (.message Error_message.locked)) ∧
      (∀ ctx2 b, FA2.set_base_uri ctx2 b (applyCalls cfg calls s1)
        = .error (.message Error_message.locked)) := by
  have h1 : s1.locked = true := by
    rw [FA2.lock] at h
    by_cases hadm : ctx.sender = s.administrator
    · rw [if_pos hadm] at h
      cases h
      rfl
    · rw [if_neg hadm] at h
      cases h
  have hall : ∀ (calls : List (Ctx × Call)) (s0 : Storage), s0.locked = true →
      (applyCalls cfg calls s0).locked = true := by
    intro calls
    induction calls with
    | nil => exact fun s0 hs0 => hs0
    | cons p rest ih =>
      obtain ⟨pctx, pc⟩ := p
      exact fun s0 hs0 => ih _ (applyCall_locked_mono cfg pctx pc s0 hs0)
  refine ⟨h1, fun calls => ⟨hall calls s1 h1, fun ctx2 sc => ?_, fun ctx2 b => ?_⟩⟩
  · simp [FA2.set_script, hall calls s1 h1]
  · simp [FA2.set_base_uri, hall calls s1 h1]

/-- Witness for C6: the administrator locks the fresh contract; the
latch holds after every later call sequence. -/
theorem C6_witness :
    ({ s_init with locked := true } : Storage).locked = true ∧
    ∀ calls : List (Ctx × Call),
      (applyCalls cfg0 calls { s_init with locked := true }).locked = true ∧
      (∀ ctx2 sc, FA2.set_script ctx2 sc
          (applyCalls cfg0 calls { s_init with locked := true })
        = .error (.message Error_message.locked)) ∧
      (∀ ctx2 b, FA2.set_base_uri ctx2 b
          (applyCalls cfg0 calls { s_init with locked := true })
        = .error (.message Error_message.locked)) :=
  C6_lock_latch cfg0 ⟨0, 99, 0, 43, 0⟩ s_init { s_init with locked := true } rfl
